import Mathlib

/-!
Verification of the RIDE Workspace Filesystem Engine specification.

The repository's TypeScript layer (`rideSearchService.ts`,
`rideWorkspaceService.ts`, `RideSecurityService` in the node implementation)
is a thin bridge that delegates every operation to a native Rust module
(`search.rs`, `indexer.rs`, `fs_watcher.rs`).  The Rust sources are not part
of the repository snapshot, so the engine behaviour (search, index, watch)
is modelled here from the specification, while the TypeScript bridge logic
(native-module gating, default arguments) is embedded directly from the
TypeScript sources.
-/

namespace RIDE

/-! ## Search engine model (spec §4.3, §4.4)

Modelled from the spec: the native `search.rs` module is missing from the
repository; only its TypeScript callers are present.  A compiled
`ContentMatcher` is a function from a line to the list of
(column, length) matches on that line; the engine below is parametric in
this compiled matcher, so theorems quantified over matchers cover every
query (literal or regex).  A concrete literal-mode matcher
(`compileLiteral`) is also defined, following §4.3: leftmost,
non-overlapping occurrences, each subsequent search starting immediately
after the previous match's end, with case-insensitive folding of both
pattern and input. -/

/-- A compiled per-line matcher: maps a line to its (column, length) matches. -/
abbrev LineMatcher := String → List (Nat × Nat)

/-- One match of the query inside one line of one file (spec §3 SearchMatch). -/
structure SearchMatch where
  filePath : String
  lineNumber : Nat
  column : Nat
  lineContent : String
  matchText : String
  matchLength : Nat
deriving DecidableEq, Repr

/-- A regular file presented to the content scanner: its path and its lines
(the spec's line splitting on LF/CRLF/CR has already been applied). -/
structure SourceFile where
  path : String
  lines : List String
deriving DecidableEq, Repr

/-- Matches of the compiled matcher on a single line, as `SearchMatch` records
with 1-based line number and 0-based column (spec §3). -/
def scanLineMatches (m : LineMatcher) (path : String) (lineNo : Nat)
    (line : String) : List SearchMatch :=
  (m line).map fun p =>
    { filePath := path, lineNumber := lineNo, column := p.1,
      lineContent := line,
      matchText := ((line.toList.drop p.1).take p.2).asString,
      matchLength := p.2 }

/-- Scan the lines of a file starting at line number `n`. -/
def scanFileFrom (m : LineMatcher) (path : String) : Nat → List String → List SearchMatch
  | _, [] => []
  | n, l :: ls => scanLineMatches m path n l ++ scanFileFrom m path (n + 1) ls

/-- All matches inside one file, in line order (spec §3 SearchResult ordering). -/
def scanFile (m : LineMatcher) (f : SourceFile) : List SearchMatch :=
  scanFileFrom m f.path 1 f.lines

/-- Aggregated result of a directory search (spec §3 SearchResult).
`durationMs` is modelled in an abstract cost model where scanning one file
takes one unit of time, so it reflects exactly the work actually performed. -/
structure SearchResult where
  «matches» : List SearchMatch
  filesScanned : Nat
  filesWithMatches : Nat
  totalMatches : Nat
  truncated : Bool
  durationMs : Nat
deriving DecidableEq, Repr

/-- The accumulation loop of `searchFiles` (spec §4.4): files are scanned in
traversal order; matches accumulate until `maxResults` is reached, at which
point scanning halts, `truncated` is set, and `filesScanned`/`durationMs`
reflect only the files actually scanned.  When `maxResults` is unset the
whole directory is scanned and `truncated` stays false. -/
def searchGo (m : LineMatcher) (maxResults : Option Nat) :
    List SourceFile → List SearchMatch → Nat → Nat → SearchResult
  | [], acc, scanned, withM =>
    { «matches» := acc, filesScanned := scanned, filesWithMatches := withM,
      totalMatches := acc.length, truncated := false, durationMs := scanned }
  | f :: rest, acc, scanned, withM =>
    let ms := scanFile m f
    let acc2 := acc ++ ms
    let withM2 := withM + (if ms.isEmpty then 0 else 1)
    match maxResults with
    | none => searchGo m none rest acc2 (scanned + 1) withM2
    | some k =>
      if k ≤ acc2.length then
        { «matches» := acc2.take k, filesScanned := scanned + 1,
          filesWithMatches := withM2, totalMatches := k,
          truncated := true, durationMs := scanned + 1 }
      else searchGo m (some k) rest acc2 (scanned + 1) withM2

/-- Modelled from the spec (§4.4 `searchFiles`): the walker's output (the
non-ignored regular files under the directory, in traversal order) is taken
as input, and the compiled matcher as a parameter. -/
def searchFiles (m : LineMatcher) (maxResults : Option Nat)
    (files : List SourceFile) : SearchResult :=
  searchGo m maxResults files [] 0 0

/-- Modelled from the spec (§4.4 `countMatches`): the identical scan but only
incrementing a counter, never limited by `maxResults`. -/
def countMatches (m : LineMatcher) (files : List SourceFile) : Nat :=
  (files.map fun f => (scanFile m f).length).sum

/-- Number of matching lines in a file (lines with at least one match). -/
def matchingLinesOfFile (m : LineMatcher) (f : SourceFile) : Nat :=
  (f.lines.filter fun l => !(m l).isEmpty).length

/-- Number of matching lines across a directory (claim C2's hypothesis). -/
def matchingLines (m : LineMatcher) (files : List SourceFile) : Nat :=
  (files.map fun f => matchingLinesOfFile m f).sum

/-! ### Literal content matcher (spec §4.3) -/

/-- Leftmost non-overlapping occurrences of `pat` in the text, fuel-bounded
structural recursion (`fuel` starts at the text length, and every step
consumes at least one character).  Each subsequent search starts immediately
after the previous match's end (spec §4.3). -/
def findOccFrom (pat : List Char) : Nat → List Char → Nat → List Nat
  | 0, _, _ => []
  | _ + 1, [], _ => []
  | fuel + 1, c :: rest, i =>
    if pat ≠ [] ∧ pat.isPrefixOf (c :: rest) then
      i :: findOccFrom pat fuel (rest.drop (pat.length - 1)) (i + pat.length)
    else
      findOccFrom pat fuel rest (i + 1)

/-- All leftmost non-overlapping occurrence columns of `pat` in `text`. -/
def findOcc (pat text : List Char) : List Nat :=
  findOccFrom pat text.length text 0

/-- Literal-mode compiled matcher (spec §4.3): `caseInsensitive` folds both
pattern and input before matching; every reported match has the pattern's
length. -/
def compileLiteral (query : String) (caseInsensitive : Bool) : LineMatcher :=
  fun line =>
    let fold := fun (s : String) => if caseInsensitive then s.toLower else s
    (findOcc (fold query).toList (fold line).toList).map fun i => (i, query.length)

/-! ### Search engine lemmas -/

/-- Length of a single file's match list is the sum of per-line match counts. -/
theorem scanFileFrom_length (m : LineMatcher) (path : String) :
    ∀ (n : Nat) (ls : List String),
      (scanFileFrom m path n ls).length = (ls.map fun l => (m l).length).sum := by
  intro n ls
  induction ls generalizing n with
  | nil => rfl
  | cons l ls ih =>
      simp [scanFileFrom, scanLineMatches, ih]

/-- A file has no more matching lines than matches. -/
theorem matchingLinesOfFile_le (m : LineMatcher) (f : SourceFile) :
    matchingLinesOfFile m f ≤ (scanFile m f).length := by
  unfold matchingLinesOfFile scanFile
  rw [scanFileFrom_length]
  induction f.lines with
  | nil => simp
  | cons l ls ih =>
      by_cases h : (m l).isEmpty
      · simp [List.filter_cons, h]
        omega
      · have h1 : 1 ≤ (m l).length := by
          cases hml : m l with
          | nil => simp [hml] at h
          | cons a as => simp
        simp [List.filter_cons, h]
        omega

/-- A directory has no more matching lines than matches. -/
theorem matchingLines_le (m : LineMatcher) (files : List SourceFile) :
    matchingLines m files ≤ countMatches m files := by
  unfold matchingLines countMatches
  induction files with
  | nil => simp
  | cons f fs ih =>
      simp only [List.map_cons, List.sum_cons]
      exact Nat.add_le_add (matchingLinesOfFile_le m f) ih

/-- In the unbounded loop, the final match-list length is the accumulator's
length plus the total match count of the remaining files. -/
theorem searchGo_none_length (m : LineMatcher) :
    ∀ (files : List SourceFile) (acc : List SearchMatch) (s w : Nat),
      (searchGo m none files acc s w).matches.length =
        acc.length + countMatches m files := by
  intro files
  induction files with
  | nil => intro acc s w; simp [searchGo, countMatches]
  | cons f rest ih =>
      intro acc s w
      simp only [searchGo, ih, countMatches, List.map_cons, List.sum_cons,
        List.length_append]
      omega

/-- In the bounded loop, once strictly more matches than the limit remain
available, the loop halts early with exactly `k` matches, the truncated flag
set, and scan count/duration covering only the files actually scanned. -/
theorem searchGo_some_truncates (m : LineMatcher) (k : Nat) :
    ∀ (files : List SourceFile) (acc : List SearchMatch) (s w : Nat),
      acc.length ≤ k → k < acc.length + countMatches m files →
      (searchGo m (some k) files acc s w).matches.length = k ∧
      (searchGo m (some k) files acc s w).truncated = true ∧
      (searchGo m (some k) files acc s w).durationMs =
        (searchGo m (some k) files acc s w).filesScanned ∧
      (searchGo m (some k) files acc s w).filesScanned ≤ s + files.length := by
  intro files
  induction files with
  | nil =>
      intro acc s w hle hlt
      simp [countMatches] at hlt
      omega
  | cons f rest ih =>
      intro acc s w hle hlt
      have hlen : (acc ++ scanFile m f).length = acc.length + (scanFile m f).length :=
        List.length_append _ _
      have hcons : countMatches m (f :: rest) =
          (scanFile m f).length + countMatches m rest := by
        simp [countMatches]
      simp only [searchGo]
      by_cases hk : k ≤ (acc ++ scanFile m f).length
      · simp only [hk, if_true]
        refine ⟨?_, by trivial, by trivial, ?_⟩
        · rw [List.length_take]
          omega
        · simp only [List.length_cons]
          omega
      · simp only [hk, if_false]
        have hle2 : (acc ++ scanFile m f).length ≤ k := by omega
        have hlt2 : k < (acc ++ scanFile m f).length + countMatches m rest := by omega
        have hmain := ih (acc ++ scanFile m f) (s + 1)
          (w + if (scanFile m f).isEmpty then 0 else 1) hle2 hlt2
        refine ⟨hmain.1, hmain.2.1, hmain.2.2.1, ?_⟩
        have h4 := hmain.2.2.2
        simp only [List.length_cons]
        omega

/-- C1: for every directory (walker file sequence) and every compiled query
matcher, `countMatches` equals the length of the match sequence that
`searchFiles` produces when `maxResults` is unset: the fast-count path equals
the unbounded full-search match count. -/
theorem countMatches_eq_unbounded_search (m : LineMatcher) (files : List SourceFile) :
    countMatches m files = (searchFiles m none files).matches.length := by
  rw [searchFiles, searchGo_none_length]
  simp

/-- C2: whenever a directory holds strictly more matching lines than the
`maxResults` bound `k`, `searchFiles` halts early and returns exactly `k`
matches with `truncated = true`, while `filesScanned` and `durationMs`
reflect only the work actually performed (duration equals the number of
files scanned, which never exceeds the directory's file count). -/
theorem searchFiles_truncates_at_maxResults (m : LineMatcher) (k : Nat)
    (files : List SourceFile) (h : k < matchingLines m files) :
    (searchFiles m (some k) files).matches.length = k ∧
    (searchFiles m (some k) files).truncated = true ∧
    (searchFiles m (some k) files).durationMs =
      (searchFiles m (some k) files).filesScanned ∧
    (searchFiles m (some k) files).filesScanned ≤ files.length := by
  have hcm : k < countMatches m files :=
    lt_of_lt_of_le h (matchingLines_le m files)
  have := searchGo_some_truncates m k files [] 0 0 (by simp) (by simpa using hcm)
  simpa [searchFiles] using this

/-- Witness for C2: one file of 100 lines each containing the literal query
"hit", searched with `maxResults = 10`, yields exactly 10 matches, the
truncated flag, and duration equal to files scanned. -/
theorem searchFiles_truncates_at_maxResults_witness :
    (searchFiles (compileLiteral "hit" false) (some 10)
        [⟨"f.txt", List.replicate 100 "hit"⟩]).matches.length = 10 ∧
    (searchFiles (compileLiteral "hit" false) (some 10)
        [⟨"f.txt", List.replicate 100 "hit"⟩]).truncated = true := by
  have h : 10 < matchingLines (compileLiteral "hit" false)
      [⟨"f.txt", List.replicate 100 "hit"⟩] := by decide
  have := searchFiles_truncates_at_maxResults (compileLiteral "hit" false) 10
    [⟨"f.txt", List.replicate 100 "hit"⟩] h
  exact ⟨this.1, this.2.1⟩

/-! ## Single-file search (spec §4.4 `searchInFile`)

Modelled from the spec: the native `search.rs` single-file path is missing
from the repository.  The filesystem is a finite map from absolute path to
line list; a missing path fails with `NotFound`, an existing file runs the
same per-line pipeline restricted to that one file. -/

/-- Error taxonomy of the engine (spec §7). -/
inductive SearchError where
  | notFound
  | invalidPattern
  | permissionDenied
  | resourceExhausted
deriving DecidableEq, Repr

/-- The disk contents visible to `searchInFile`: path → lines. -/
abbrev FileSystem := List (String × List String)

/-- Modelled from the spec (§4.4 `searchInFile`): same pipeline restricted to
one file; fails with `NotFound` if the file is absent. -/
def searchInFile (fs : FileSystem) (m : LineMatcher) (filePath : String) :
    Except SearchError (List SearchMatch) :=
  match fs.lookup filePath with
  | none => .error .notFound
  | some ls => .ok (scanFile m ⟨filePath, ls⟩)

/-- C7: `searchInFile` fails with `NotFound` exactly when the file is absent,
and an existing file always yields `.ok` — in particular a file whose content
has zero matches returns the empty sequence, not a fault. -/
theorem searchInFile_notFound_iff_absent (fs : FileSystem) (m : LineMatcher)
    (filePath : String) :
    (searchInFile fs m filePath = .error .notFound ↔ fs.lookup filePath = none) ∧
    (∀ ls, fs.lookup filePath = some ls →
      searchInFile fs m filePath = .ok (scanFile m ⟨filePath, ls⟩)) := by
  constructor
  · constructor
    · intro h
      cases hl : fs.lookup filePath with
      | none => rfl
      | some ls => simp [searchInFile, hl] at h
    · intro h
      simp [searchInFile, h]
  · intro ls h
    simp [searchInFile, h]

/-- Witness for C7: on a disk holding one file `a.txt` whose single line does
not contain the literal query "zap", the lookup of `a.txt` yields the empty
match sequence and the lookup of the absent `missing.txt` fails with
`NotFound`. -/
theorem searchInFile_notFound_iff_absent_witness :
    searchInFile [("a.txt", ["hello world"])] (compileLiteral "zap" false) "a.txt" =
      .ok [] ∧
    searchInFile [("a.txt", ["hello world"])] (compileLiteral "zap" false) "missing.txt" =
      .error .notFound := by
  constructor
  · have h := (searchInFile_notFound_iff_absent
        [("a.txt", ["hello world"])] (compileLiteral "zap" false) "a.txt").2
        ["hello world"] (by decide)
    have h2 : scanFile (compileLiteral "zap" false)
        ⟨"a.txt", ["hello world"]⟩ = ([] : List SearchMatch) := by decide
    rw [h, h2]
  · exact (searchInFile_notFound_iff_absent
        [("a.txt", ["hello world"])] (compileLiteral "zap" false) "missing.txt").1.mpr
      (by decide)

/-! ## Watch registry and debounce model (spec §4.6)

Modelled from the spec: the native `fs_watcher.rs` module is missing from
the repository.  The registry maps watch ids to live handles with buffered
events; debounce coalescing is the pure per-(path, eventType) state machine
of spec §9: within one window, a create immediately followed by a delete
cancels to no event, any other sequence ending in delete reports a single
delete, and otherwise the first observed type is reported. -/

/-- Filesystem event types (spec §3 FsEvent). -/
inductive FsEventType where
  | create
  | modify
  | delete
  | rename
deriving DecidableEq, Repr

/-- A normalized, debounced filesystem event (spec §3 FsEvent). -/
structure FsEvent where
  eventType : FsEventType
  path : String
  isDirectory : Bool
  timestampMs : Nat
deriving DecidableEq, Repr

/-- A live watch handle: watched path, recursive flag, debounce interval,
and the buffer of pending events (spec §3 WatchHandle). -/
structure WatchHandleState where
  path : String
  recursive : Bool
  debounceMs : Nat
  buffer : List FsEvent
deriving DecidableEq, Repr

/-- The table of live watch handles keyed by id (spec §2 WatchRegistry). -/
structure WatchRegistry where
  handles : List (String × WatchHandleState)
deriving DecidableEq, Repr

/-- Modelled from the spec (§4.6 `stopWatching`): releases the handle and
discards buffered events, returning false if the id was already stopped or
never existed. -/
def WatchRegistry.stopWatching (r : WatchRegistry) (watchId : String) :
    Bool × WatchRegistry :=
  if (r.handles.lookup watchId).isSome then
    (true, ⟨r.handles.filter fun h => h.1 != watchId⟩)
  else
    (false, r)

/-- Modelled from the spec (§4.6 `getWatchEvents`): drains the handle's
buffer in arrival order and clears it; an unknown id yields an empty
sequence. -/
def WatchRegistry.getWatchEvents (r : WatchRegistry) (watchId : String) :
    List FsEvent × WatchRegistry :=
  match r.handles.lookup watchId with
  | none => ([], r)
  | some h =>
      (h.buffer,
        ⟨r.handles.map fun p =>
          if p.1 == watchId then (p.1, { p.2 with buffer := [] }) else p⟩)

/-- C3: on an id that names no live handle, `stopWatching` returns false and
leaves the registry unchanged, and `getWatchEvents` returns the empty
sequence and leaves the registry unchanged; both are total functions, so
neither raises. -/
theorem unknown_watch_id_is_noop (r : WatchRegistry) (watchId : String)
    (h : r.handles.lookup watchId = none) :
    r.stopWatching watchId = (false, r) ∧
    r.getWatchEvents watchId = ([], r) := by
  constructor
  · simp [WatchRegistry.stopWatching, h]
  · simp [WatchRegistry.getWatchEvents, h]

/-- Witness for C3: the empty registry has no handle named "w7", so stopping
or draining it is a no-op returning false / the empty sequence. -/
theorem unknown_watch_id_is_noop_witness :
    WatchRegistry.stopWatching ⟨[]⟩ "w7" = (false, ⟨[]⟩) ∧
    WatchRegistry.getWatchEvents ⟨[]⟩ "w7" = ([], ⟨[]⟩) :=
  unknown_watch_id_is_noop ⟨[]⟩ "w7" (by decide)

/-- Modelled from the spec (§4.6, §9): coalescing of the raw event types
observed for one path within one debounce window.  A window opening with a
create and closing with a delete cancels to no event; any other window
ending in delete reports a single delete; otherwise the first observed type
is reported; an empty window reports nothing. -/
def coalesce : List FsEventType → Option FsEventType
  | [] => none
  | first :: rest =>
      if (first :: rest).getLast? = some .delete then
        if first = .create then none else some .delete
      else
        some first

/-- Modelled from the spec (§4.6): at the close of a debounce window for one
path, the coalesced event (if any) is appended to the watched handle's
buffer; a cancelled window appends nothing. -/
def WatchRegistry.deliverWindow (r : WatchRegistry) (watchId : String)
    (path : String) (isDir : Bool) (ts : Nat) (window : List FsEventType) :
    WatchRegistry :=
  match coalesce window with
  | none => r
  | some t =>
      ⟨r.handles.map fun p =>
        if p.1 == watchId then
          (p.1, { p.2 with buffer := p.2.buffer ++ [⟨t, path, isDir, ts⟩] })
        else p⟩

/-- C4: raw events for one path within one debounce window coalesce as the
spec requires — a create immediately followed by a delete within the window
cancels, so a watcher whose buffer was empty yields zero events on the next
`getWatchEvents` poll; any other sequence ending in delete reports a single
delete; otherwise the first observed type is reported. -/
theorem debounce_window_coalescing (r : WatchRegistry) (watchId path : String)
    (isDir : Bool) (ts : Nat) (h : WatchHandleState)
    (hlook : r.handles.lookup watchId = some h) (hbuf : h.buffer = []) :
    ((r.deliverWindow watchId path isDir ts
        [.create, .delete]).getWatchEvents watchId).1 = [] ∧
    (∀ es : List FsEventType, es.getLast? = some .delete →
      es.head? ≠ some .create → coalesce es = some .delete) ∧
    (∀ (es : List FsEventType) (t : FsEventType), es.head? = some t →
      es.getLast? ≠ some .delete → coalesce es = some t) := by
  refine ⟨?_, ?_, ?_⟩
  · have hc : coalesce [.create, .delete] = none := rfl
    simp only [WatchRegistry.deliverWindow, hc]
    simp [WatchRegistry.getWatchEvents, hlook, hbuf]
  · intro es h1 h2
    match es with
    | [] => simp at h1
    | first :: rest =>
        have hf : first ≠ FsEventType.create := by
          intro hcreate
          exact h2 (by simp [hcreate])
        simp [coalesce, h1, hf]
  · intro es t h1 h2
    match es with
    | [] => simp at h1
    | first :: rest =>
        have hft : first = t := by simpa using h1
        subst hft
        simp [coalesce, h2]

/-- Witness for C4: a registry with one live handle "w" and an empty buffer
polls zero events after a create-then-delete window; a modify-then-delete
window coalesces to delete; a modify-then-create window reports the first
observed type, modify. -/
theorem debounce_window_coalescing_witness :
    ((WatchRegistry.deliverWindow ⟨[("w", ⟨"/tmp/p", true, 100, []⟩)]⟩ "w"
        "/tmp/p/file" false 0 [.create, .delete]).getWatchEvents "w").1 = [] ∧
    coalesce [.modify, .delete] = some .delete ∧
    coalesce [.modify, .create] = some .modify := by
  have h := debounce_window_coalescing ⟨[("w", ⟨"/tmp/p", true, 100, []⟩)]⟩ "w"
    "/tmp/p/file" false 0 ⟨"/tmp/p", true, 100, []⟩ (by decide) rfl
  exact ⟨h.1, h.2.1 [.modify, .delete] (by decide) (by decide),
    h.2.2 [.modify, .create] .modify (by decide) (by decide)⟩

/-! ## Workspace index model (spec §4.5)

Modelled from the spec: the native `indexer.rs` module is missing from the
repository.  The disk is a finite list of file metadata records; a full walk
filters the regular files under the root through default ignore rules plus
the caller's exclude globs, and the resulting path-keyed table atomically
replaces the whole index (the new state does not depend on the old one, so
readers only ever observe complete generations). -/

/-- Indexed file metadata (spec §3 FileMetadata). -/
structure FileMetadata where
  path : String
  relativePath : String
  size : Nat
  mtimeMs : Nat
  extension : String
  isDirectory : Bool
deriving DecidableEq, Repr

/-- The files present on disk, with their metadata, in traversal order. -/
abbrev DiskModel := List FileMetadata

/-- Conventional VCS metadata directories, always excluded (spec §4.1). -/
def defaultIgnored (relPath : String) : Bool :=
  (relPath.splitOn "/").any fun seg => seg == ".git" || seg == ".svn" || seg == ".hg"

/-- Fuel-bounded glob matching step (spec §4.1): `**` crosses path-segment
separators, `*` and `?` do not; bracket classes are not modelled.  The fuel
starts above pattern length plus subject length, and every step consumes at
least one character from their union, so it never runs out. -/
def globMatchAux : Nat → List Char → List Char → Bool
  | 0, ps, cs => ps.isEmpty && cs.isEmpty
  | fuel + 1, ps, cs =>
      match ps, cs with
      | [], [] => true
      | '*' :: '*' :: ps2, cs =>
          globMatchAux fuel ps2 cs ||
            (match cs with
             | [] => false
             | _ :: cs2 => globMatchAux fuel ('*' :: '*' :: ps2) cs2)
      | '*' :: ps2, cs =>
          globMatchAux fuel ps2 cs ||
            (match cs with
             | [] => false
             | '/' :: _ => false
             | _ :: cs2 => globMatchAux fuel ('*' :: ps2) cs2)
      | '?' :: ps2, c :: cs2 => (c != '/') && globMatchAux fuel ps2 cs2
      | p :: ps2, c :: cs2 => (p == c) && globMatchAux fuel ps2 cs2
      | _, _ => false

/-- Whether the glob pattern matches the relative path (spec §4.1). -/
def globMatch (pat s : String) : Bool :=
  globMatchAux (pat.length + s.length + 1) pat.toList s.toList

/-- Modelled from the spec (§4.5): the full walk of one `indexWorkspace`
call — regular files under the root, minus default-ignored paths, minus the
caller's exclude globs — keyed by absolute path. -/
def buildIndex (disk : DiskModel) (root : String) (excl : List String) :
    List (String × FileMetadata) :=
  (disk.filter fun f =>
      !f.isDirectory && root.isPrefixOf f.path &&
      !defaultIgnored f.relativePath &&
      !(excl.any fun g => globMatch g f.relativePath)).map fun f => (f.path, f)

/-- The in-memory workspace index: a complete generation of entries. -/
structure IndexState where
  entries : List (String × FileMetadata)
deriving DecidableEq, Repr

/-- Modelled from the spec (§4.5 `indexWorkspace`): one full walk, then an
atomic swap of the entire index (the prior state is discarded wholesale);
returns the indexed file count. -/
def indexWorkspace (disk : DiskModel) (root : String) (excl : List String)
    (_s : IndexState) : Nat × IndexState :=
  let entries := buildIndex disk root excl
  (entries.length, ⟨entries⟩)

/-- Modelled from the spec (§4.5 `getFileInfo`): lookup by absolute path,
absent (not a fault) when the path is not in the current generation. -/
def IndexState.getFileInfo (s : IndexState) (filePath : String) :
    Option FileMetadata :=
  s.entries.lookup filePath

/-- C5: `indexWorkspace(root, [])` is idempotent — with no intervening
filesystem change, a second call returns the same file count as the first,
and every subsequent `getFileInfo` lookup returns identical metadata after
either call. -/
theorem indexWorkspace_idempotent (disk : DiskModel) (root : String)
    (s : IndexState) :
    (indexWorkspace disk root [] s).1 =
      (indexWorkspace disk root [] (indexWorkspace disk root [] s).2).1 ∧
    ∀ p, ((indexWorkspace disk root [] s).2).getFileInfo p =
      ((indexWorkspace disk root [] (indexWorkspace disk root [] s).2).2).getFileInfo p :=
  ⟨rfl, fun _ => rfl⟩

/-- No entry of the built index carries a path that no disk file has. -/
theorem lookup_buildIndex_of_not_on_disk (disk : DiskModel) (root : String)
    (excl : List String) (p : String) (h : ∀ f ∈ disk, f.path ≠ p) :
    (buildIndex disk root excl).lookup p = none := by
  induction disk with
  | nil => rfl
  | cons f fs ih =>
      have hf : f.path ≠ p := h f (List.mem_cons_self f fs)
      have hfs : ∀ g ∈ fs, g.path ≠ p := fun g hg => h g (List.mem_cons_of_mem f hg)
      simp only [buildIndex, List.filter_cons]
      split
      · simp only [List.map_cons, List.lookup_cons]
        rw [beq_false_of_ne (Ne.symm hf)]
        exact ih hfs
      · exact ih hfs

/-- C8: for every path that was never indexed (no disk file carries it, so
it is absent from the generation built by `indexWorkspace`), `getFileInfo`
returns `none`; the lookup is a total function, so it never raises. -/
theorem getFileInfo_absent_of_never_indexed (disk : DiskModel) (root : String)
    (excl : List String) (s : IndexState) (p : String)
    (h : ∀ f ∈ disk, f.path ≠ p) :
    ((indexWorkspace disk root excl s).2).getFileInfo p = none := by
  show (buildIndex disk root excl).lookup p = none
  exact lookup_buildIndex_of_not_on_disk disk root excl p h

/-- Witness for C8: a one-file disk indexed under root "/ws" has no entry
for the absent path "/ws/missing.txt". -/
theorem getFileInfo_absent_of_never_indexed_witness :
    ((indexWorkspace [⟨"/ws/a.txt", "a.txt", 3, 0, "txt", false⟩] "/ws" [] ⟨[]⟩).2).getFileInfo
      "/ws/missing.txt" = none :=
  getFileInfo_absent_of_never_indexed [⟨"/ws/a.txt", "a.txt", 3, 0, "txt", false⟩]
    "/ws" [] ⟨[]⟩ "/ws/missing.txt" (by decide)

/-! ## Fuzzy matcher model (spec §4.5 `fuzzyFind`, §9)

Modelled from the spec: the native fuzzy scorer inside `indexer.rs` is
missing from the repository, and the spec leaves the exact weights open
(§9), freezing only the ordering intuition.  The frozen formula below
follows the spec's words: ordered-subsequence matching, case-insensitive,
a bonus for contiguous runs, a bonus for matches aligned to path-segment
boundaries, and a penalty proportional to candidate length; ties break by
shorter path, then lexicographic order. -/

/-- Whether the character before the current position starts a new path
segment or word (start of string, or a separator). -/
def segBoundary : Option Char → Bool
  | none => true
  | some c => c == '/' || c == '_' || c == '-' || c == '.' || c == ' '

/-- Greedy ordered-subsequence scan: query characters must appear in order
(case-insensitively) inside the candidate; each matched character scores a
base 10, plus 5 when it immediately follows the previous matched character
(contiguous run), plus 10 when it sits on a path-segment boundary.  `none`
when the query is not a subsequence of the candidate. -/
def fuzzyScoreAux : List Char → List Char → Option Char → Bool → Int → Option Int
  | [], _, _, _, acc => some acc
  | _ :: _, [], _, _, _ => none
  | q :: qs, c :: cs, prev, prevMatched, acc =>
      if q.toLower == c.toLower then
        fuzzyScoreAux qs cs (some c) true
          (acc + 10 + (if prevMatched then 5 else 0) +
            (if segBoundary prev then 10 else 0))
      else
        fuzzyScoreAux (q :: qs) cs (some c) false acc

/-- Score of a candidate relative path against the query: subsequence bonus
total minus the candidate's length (longer candidates are penalized);
`none` when the query does not match. -/
def fuzzyScore (query cand : String) : Option Int :=
  match fuzzyScoreAux query.toList cand.toList none false 0 with
  | none => none
  | some s => some (s - (cand.length : Int))

/-- Ranking key: ascending key order is descending score, then shorter
relative path, then lexicographically smaller relative path. -/
def fuzzyKey (query : String) (f : FileMetadata) : Int ×ₗ (Nat ×ₗ String) :=
  toLex (-((fuzzyScore query f.relativePath).getD 0),
    toLex (f.relativePath.length, f.relativePath))

/-- `a` ranks at least as high as `b` for the query. -/
def fuzzyBefore (query : String) (a b : FileMetadata) : Prop :=
  fuzzyKey query a ≤ fuzzyKey query b

instance (query : String) : DecidableRel (fuzzyBefore query) := fun a b =>
  inferInstanceAs (Decidable (fuzzyKey query a ≤ fuzzyKey query b))

instance (query : String) : IsTotal FileMetadata (fuzzyBefore query) :=
  ⟨fun a b => le_total (fuzzyKey query a) (fuzzyKey query b)⟩

instance (query : String) : IsTrans FileMetadata (fuzzyBefore query) :=
  ⟨fun _ _ _ hab hbc => le_trans hab hbc⟩

/-- Modelled from the spec (§4.5 `fuzzyFind`): score every indexed relative
path, drop the non-matching candidates, order the rest by descending score
with ties broken by shorter path then lexicographic order, and return the
top `maxResults`. -/
def fuzzyFind (s : IndexState) (query : String) (maxResults : Nat) :
    List FileMetadata :=
  (((s.entries.map Prod.snd).filter fun f =>
      (fuzzyScore query f.relativePath).isSome).insertionSort
    (fuzzyBefore query)).take maxResults

/-- The three-file index of the spec's golden ranking example (stored in a
scrambled order so the ranking is forced by the scorer, not the input). -/
def exampleIndex : IndexState :=
  ⟨[("/ws/src/domainmodel.rs", ⟨"/ws/src/domainmodel.rs", "src/domainmodel.rs", 10, 0, "rs", false⟩),
    ("/ws/src/zzzmain/file.rs", ⟨"/ws/src/zzzmain/file.rs", "src/zzzmain/file.rs", 10, 0, "rs", false⟩),
    ("/ws/src/main.rs", ⟨"/ws/src/main.rs", "src/main.rs", 10, 0, "rs", false⟩)]⟩

/-- C6: `fuzzyFind` returns at most `maxResults` results, ordered by
descending score with ties broken by shorter path then lexicographic order;
the returned results are the top-ranked ones, since every returned element
ranks at least as high as every matching candidate left out; and on the
spec's golden example the query "main" ranks `src/main.rs` above
`src/domainmodel.rs` above `src/zzzmain/file.rs`. -/
theorem fuzzyFind_ranking :
    (∀ (s : IndexState) (query : String) (n : Nat),
      List.Sorted (fuzzyBefore query) (fuzzyFind s query n) ∧
      (fuzzyFind s query n).length ≤ n ∧
      (∀ x ∈ fuzzyFind s query n,
        ∀ y ∈ (s.entries.map Prod.snd).filter
            (fun f => (fuzzyScore query f.relativePath).isSome),
          y ∉ fuzzyFind s query n → fuzzyBefore query x y)) ∧
    (fuzzyFind exampleIndex "main" 50).map FileMetadata.relativePath =
      ["src/main.rs", "src/domainmodel.rs", "src/zzzmain/file.rs"] := by
  constructor
  · intro s query n
    refine ⟨?_, ?_, ?_⟩
    · exact List.Pairwise.take
        (List.sorted_insertionSort (fuzzyBefore query) _)
    · exact List.length_take_le n _
    · intro x hx y hy hyout
      set L := ((s.entries.map Prod.snd).filter fun f =>
        (fuzzyScore query f.relativePath).isSome).insertionSort
        (fuzzyBefore query) with hL
      have hyL : y ∈ L := (List.mem_insertionSort (fuzzyBefore query)).mpr hy
      have hsplit : L = L.take n ++ L.drop n := (List.take_append_drop n L).symm
      have hydrop : y ∈ L.drop n := by
        rcases List.mem_append.mp (hsplit ▸ hyL) with h | h
        · exact absurd h hyout
        · exact h
      have hsorted : List.Pairwise (fuzzyBefore query) (L.take n ++ L.drop n) := by
        rw [← hsplit]
        exact List.sorted_insertionSort (fuzzyBefore query) _
      exact (List.pairwise_append.mp hsorted).2.2 x hx y hydrop
  · decide

/-! ## TypeScript bridge embedding

These definitions are translated directly from the repository's TypeScript
sources: `RideSecurityService` (node implementation, `_loadNative` /
`_requireNative` and the delegating methods) and `RideWorkspaceService`
(`startWatching` with its default parameters).  TypeScript `undefined`
optional parameters become `Option`, a thrown `Error` becomes
`Except.error` carrying the message string, and the loaded native module
becomes an abstract record of functions with the interface's shapes. -/

/-- Search options (spec §3 SearchOptions / `ISearchOptions`): all fields
optional, absence implying engine defaults. -/
structure SearchOptions where
  isRegex : Option Bool
  caseInsensitive : Option Bool
  includeGlobs : Option (List String)
  excludeGlobs : Option (List String)
  maxResults : Option Nat
  respectGitignore : Option Bool
  filenameOnly : Option Bool
  maxFileSize : Option Nat
  wholeWord : Option Bool

/-- A watch handle as returned to callers (`IWatchHandle`): opaque id,
watched path, recursive flag. -/
structure WatchHandle where
  id : String
  path : String
  recursive : Bool
deriving DecidableEq, Repr

/-- The loaded napi native module (`ride-security.*.node`), restricted to
the workspace-engine operations named by the service: an abstract record of
functions with the interface's signatures. -/
structure NativeModule where
  searchFiles : String → String → Option SearchOptions → SearchResult
  searchInFile : String → String → Option Bool → Option Bool → List SearchMatch
  countMatches : String → String → Option Bool → Nat
  indexWorkspace : String → Option (List String) → Nat
  fuzzyFind : String → Option Nat → List FileMetadata
  getFileInfo : String → Option FileMetadata
  startWatching : String → Option Bool → Option Nat → WatchHandle
  stopWatching : String → Bool
  getWatchEvents : String → List FsEvent

/-- The node `RideSecurityService`: `_loadNative` either produced the module
or returned null (`none`) when loading failed. -/
structure RideSecurityService where
  _native : Option NativeModule

/-- The message of the error thrown by `_requireNative`. -/
def requireNativeError : String :=
  "[RIDE] Native Rust module is required but not loaded"

/-- `searchFiles` of the node service: `_requireNative()` then delegate. -/
def RideSecurityService.searchFiles (svc : RideSecurityService)
    (directory query : String) (options : Option SearchOptions) :
    Except String SearchResult :=
  match svc._native with
  | none => .error requireNativeError
  | some n => .ok (n.searchFiles directory query options)

/-- `searchInFile` of the node service: `_requireNative()` then delegate. -/
def RideSecurityService.searchInFile (svc : RideSecurityService)
    (filePath query : String) (isRegex caseInsensitive : Option Bool) :
    Except String (List SearchMatch) :=
  match svc._native with
  | none => .error requireNativeError
  | some n => .ok (n.searchInFile filePath query isRegex caseInsensitive)

/-- `countMatches` of the node service: `_requireNative()` then delegate. -/
def RideSecurityService.countMatches (svc : RideSecurityService)
    (directory query : String) (isRegex : Option Bool) : Except String Nat :=
  match svc._native with
  | none => .error requireNativeError
  | some n => .ok (n.countMatches directory query isRegex)

/-- `indexWorkspace` of the node service: `_requireNative()` then delegate. -/
def RideSecurityService.indexWorkspace (svc : RideSecurityService)
    (rootPath : String) (excludeGlobs : Option (List String)) :
    Except String Nat :=
  match svc._native with
  | none => .error requireNativeError
  | some n => .ok (n.indexWorkspace rootPath excludeGlobs)

/-- `fuzzyFind` of the node service: `_requireNative()` then delegate. -/
def RideSecurityService.fuzzyFind (svc : RideSecurityService)
    (query : String) (maxResults : Option Nat) :
    Except String (List FileMetadata) :=
  match svc._native with
  | none => .error requireNativeError
  | some n => .ok (n.fuzzyFind query maxResults)

/-- `getFileInfo` of the node service: `_requireNative()` then delegate
(the TypeScript `?? null` keeps absence as `none`). -/
def RideSecurityService.getFileInfo (svc : RideSecurityService)
    (filePath : String) : Except String (Option FileMetadata) :=
  match svc._native with
  | none => .error requireNativeError
  | some n => .ok (n.getFileInfo filePath)

/-- `startWatching` of the node service: `_requireNative()` then delegate. -/
def RideSecurityService.startWatching (svc : RideSecurityService)
    (path : String) (recursive : Option Bool) (debounceMs : Option Nat) :
    Except String WatchHandle :=
  match svc._native with
  | none => .error requireNativeError
  | some n => .ok (n.startWatching path recursive debounceMs)

/-- `stopWatching` of the node service: `_requireNative()` then delegate. -/
def RideSecurityService.stopWatching (svc : RideSecurityService)
    (watchId : String) : Except String Bool :=
  match svc._native with
  | none => .error requireNativeError
  | some n => .ok (n.stopWatching watchId)

/-- `getWatchEvents` of the node service: `_requireNative()` then delegate. -/
def RideSecurityService.getWatchEvents (svc : RideSecurityService)
    (watchId : String) : Except String (List FsEvent) :=
  match svc._native with
  | none => .error requireNativeError
  | some n => .ok (n.getWatchEvents watchId)

/-- C9: when `_loadNative` returned null, every workspace-engine operation
of `RideSecurityService` raises the error
"[RIDE] Native Rust module is required but not loaded" instead of returning
a result — in particular `stopWatching` and `getWatchEvents` raise even on
an unknown id, rather than returning false or an empty sequence. -/
theorem nativeless_service_raises (svc : RideSecurityService)
    (h : svc._native = none) :
    (∀ d q o, svc.searchFiles d q o = .error requireNativeError) ∧
    (∀ f q ir ci, svc.searchInFile f q ir ci = .error requireNativeError) ∧
    (∀ d q ir, svc.countMatches d q ir = .error requireNativeError) ∧
    (∀ r e, svc.indexWorkspace r e = .error requireNativeError) ∧
    (∀ q n, svc.fuzzyFind q n = .error requireNativeError) ∧
    (∀ p, svc.getFileInfo p = .error requireNativeError) ∧
    (∀ p r d, svc.startWatching p r d = .error requireNativeError) ∧
    (∀ i, svc.stopWatching i = .error requireNativeError) ∧
    (∀ i, svc.getWatchEvents i = .error requireNativeError) := by
  refine ⟨?_, ?_, ?_, ?_, ?_, ?_, ?_, ?_, ?_⟩ <;>
    intros <;>
    simp only [RideSecurityService.searchFiles, RideSecurityService.searchInFile,
      RideSecurityService.countMatches, RideSecurityService.indexWorkspace,
      RideSecurityService.fuzzyFind, RideSecurityService.getFileInfo,
      RideSecurityService.startWatching, RideSecurityService.stopWatching,
      RideSecurityService.getWatchEvents, h]

/-- Witness for C9: the service whose native-module load failed raises on
`stopWatching` and `getWatchEvents` for the unknown id "w7", and on
`searchFiles`. -/
theorem nativeless_service_raises_witness :
    RideSecurityService.stopWatching ⟨none⟩ "w7" = .error requireNativeError ∧
    RideSecurityService.getWatchEvents ⟨none⟩ "w7" = .error requireNativeError ∧
    RideSecurityService.searchFiles ⟨none⟩ "/ws" "main" none = .error requireNativeError := by
  have h := nativeless_service_raises ⟨none⟩ rfl
  exact ⟨h.2.2.2.2.2.2.2.1 "w7", h.2.2.2.2.2.2.2.2 "w7", h.1 "/ws" "main" none⟩

/-- The `IRideSecurityService` dependency injected into
`RideWorkspaceService`, as seen through the one operation claim C10 uses. -/
structure SecurityIface where
  startWatching : String → Bool → Nat → WatchHandle

/-- The `RideWorkspaceService` wrapper holding its injected `_security`. -/
structure RideWorkspaceService where
  _security : SecurityIface

/-- `RideWorkspaceService.startWatching(path, recursive = true,
debounceMs = 100)`: TypeScript default parameters substitute `true` and
`100` for omitted arguments before delegating to
`_security.startWatching(path, recursive, debounceMs)`. -/
def RideWorkspaceService.startWatching (svc : RideWorkspaceService)
    (path : String) (recursive : Option Bool) (debounceMs : Option Nat) :
    WatchHandle :=
  svc._security.startWatching path (recursive.getD true) (debounceMs.getD 100)

/-- C10: for every path, calling `RideWorkspaceService.startWatching` with
`recursive` and `debounceMs` omitted equals calling the underlying
service's `startWatching(path, true, 100)`. -/
theorem startWatching_defaults (svc : RideWorkspaceService) (path : String) :
    svc.startWatching path none none = svc._security.startWatching path true 100 :=
  rfl

end RIDE
